import Mathlib

/-!
Verification of the ADO pipeline documentation tool.

This file gives a shallow embedding of `ado-pipeline-doc.py`: parsed YAML
values, Python dictionaries as association lists, the row-building loop of
`processData`, the column-drop phase, the markdown rendering, the
marker-splice logic of `writeFile`, and the `parameters` extraction of
`parseYAML`.  The library calls `yaml.dump` (block style) and Python `str`
are modelled by executable serializers; no claim inspects their exact
output beyond computing it on concrete values.
-/

set_option autoImplicit false
set_option maxRecDepth 10000

namespace ADODoc

/-- A parsed YAML value, as produced by the YAML loader: null, booleans,
integers, strings, sequences and mappings (mappings keep key order, as
Python dictionaries do). -/
inductive Yaml where
  | nul : Yaml
  | bool : Bool → Yaml
  | int : Int → Yaml
  | str : String → Yaml
  | list : List Yaml → Yaml
  | map : List (String × Yaml) → Yaml
deriving Repr

/-- Python truthiness of a parsed YAML value: `None`, `False`, `0`, `''`,
`[]` and an empty mapping are falsy, everything else is truthy. -/
def truthy : Yaml → Bool
  | Yaml.nul => false
  | Yaml.bool b => b
  | Yaml.int n => n != 0
  | Yaml.str s => !s.isEmpty
  | Yaml.list xs => !xs.isEmpty
  | Yaml.map kvs => !kvs.isEmpty

/-- Python `v == lit` for a string literal `lit`: true exactly when `v` is
that string (values of other types never compare equal to a string). -/
def pyEqStr (v : Yaml) (lit : String) : Bool :=
  match v with
  | Yaml.str s => s == lit
  | _ => false

/-- A Python dictionary with string keys, modelled as an ordered
association list.  Dictionaries coming from YAML mappings have pairwise
distinct keys. -/
abbrev Dict (β : Type) := List (String × β)

/-- One parameter record from the `parameters` list. -/
abbrev Param := Dict Yaml

/-- A row record of `processData` (`object_template.copy()` updated with
the parameter). -/
abbrev Row := Dict Yaml

/-- Key lookup in a dictionary: the value at the first binding of `k`. -/
def alGet {β : Type} : Dict β → String → Option β
  | [], _ => none
  | (k', v) :: t, k => if k' = k then some v else alGet t k

/-- Python `d.get(k, dflt)`. -/
def pyGet (d : Dict Yaml) (k : String) (dflt : Yaml) : Yaml :=
  (alGet d k).getD dflt

/-- Python `d[k] = v`: replace the value at an existing binding of `k` in
place, otherwise append a new binding at the end. -/
def alInsert {β : Type} : Dict β → String → β → Dict β
  | [], k, v => [(k, v)]
  | (k', v') :: t, k, v =>
    if k' = k then (k, v) :: t else (k', v') :: alInsert t k v

/-- Python `d.update(p)`: assign every binding of `p` into `d`, in order. -/
def alUpdate {β : Type} : Dict β → Dict β → Dict β
  | d, [] => d
  | d, (k, v) :: t => alUpdate (alInsert d k v) t

/-- Python `d.pop(k, None)`: remove the binding of `k`, if any. -/
def alPop {β : Type} : Dict β → String → Dict β
  | [], _ => []
  | (k', v) :: t, k => if k' = k then t else (k', v) :: alPop t k

/-- The keys of a dictionary, in order. -/
def keysOf {β : Type} (d : Dict β) : List String :=
  d.map Prod.fst

/-- The value at the last binding of `k`, if any (after `d.update(p)` the
last binding of `p` wins). -/
def lastVal {β : Type} : Dict β → String → Option β
  | [], _ => none
  | (k', v) :: t, k =>
    match lastVal t k with
    | some w => some w
    | none => if k' = k then some v else none

/-- A single-quote character, used by the Python `repr` of strings. -/
def squote : String := (Char.ofNat 39).toString

mutual

/-- Model of Python `repr` on parsed YAML values (string escaping inside
`repr` is modelled for strings without special characters). -/
def pyRepr : Yaml → String
  | Yaml.nul => "None"
  | Yaml.bool true => "True"
  | Yaml.bool false => "False"
  | Yaml.int n => toString n
  | Yaml.str s => squote ++ s ++ squote
  | Yaml.list xs => "[" ++ String.intercalate ", " (pyReprList xs) ++ "]"
  | Yaml.map kvs => "\x7b" ++ String.intercalate ", " (pyReprMap kvs) ++ "\x7d"

/-- `repr` of the elements of a list. -/
def pyReprList : List Yaml → List String
  | [] => []
  | x :: t => pyRepr x :: pyReprList t

/-- `repr` of the entries of a mapping. -/
def pyReprMap : List (String × Yaml) → List String
  | [] => []
  | (k, v) :: t => (squote ++ k ++ squote ++ ": " ++ pyRepr v) :: pyReprMap t

end

/-- Model of Python `str` on parsed YAML values, as used by
`str(row.get(key, ''))` when rendering a cell. -/
def pyStr : Yaml → String
  | Yaml.str s => s
  | v => pyRepr v

/-- Scalar spelling used by the block-style YAML serializer. -/
def yScalar : Yaml → String
  | Yaml.nul => "null"
  | Yaml.bool true => "true"
  | Yaml.bool false => "false"
  | Yaml.int n => toString n
  | Yaml.str s => s
  | Yaml.list _ => ""
  | Yaml.map _ => ""

/-- Whether a value is rendered as an indented block (a non-empty sequence
or mapping) by the block-style serializer. -/
def yIsBlock : Yaml → Bool
  | Yaml.list (_ :: _) => true
  | Yaml.map (_ :: _) => true
  | _ => false

/-- Prefix the first line with `- ` and indent the remaining lines, for one
sequence item. -/
def withDash : List String → List String
  | [] => []
  | a :: rest => ("- " ++ a) :: rest.map (fun s => "  " ++ s)

mutual

/-- Model of the block-style YAML serializer (`yaml.dump` with
`default_flow_style=False`), as a list of output lines. -/
def yamlLines : Yaml → List String
  | Yaml.list [] => ["[]"]
  | Yaml.list (x :: t) => yamlSeqLines (x :: t)
  | Yaml.map [] => ["\x7b\x7d"]
  | Yaml.map (kv :: t) => yamlMapLines (kv :: t)
  | v => [yScalar v]

/-- Serialize the items of a block sequence. -/
def yamlSeqLines : List Yaml → List String
  | [] => []
  | x :: t => withDash (yamlLines x) ++ yamlSeqLines t

/-- Serialize the entries of a block mapping. -/
def yamlMapLines : List (String × Yaml) → List String
  | [] => []
  | (k, v) :: t =>
    (if yIsBlock v then
      (k ++ ":") :: (yamlLines v).map (fun s => "  " ++ s)
    else
      [k ++ ": " ++ String.intercalate "" (yamlLines v)]) ++ yamlMapLines t

end

/-- Model of `yaml.dump(v, default_flow_style=False)`. -/
def yamlDump (v : Yaml) : String :=
  String.intercalate "\n" (yamlLines v) ++ "\n"

/-- The pretty-printed single-line cell text of a value:
`yaml.dump(v).strip().replace('\n', '<br/>')` (`prettyObject`, lines
141-146). -/
def prettyStr (v : Yaml) : String :=
  ((yamlDump v).trim).replace "\n" "<br/>"

/-- The error taxonomy raised as `ADOPipelineDocException`. -/
inductive DocError where
  | emptyConfig : DocError
  | noParameters : DocError
  | malformedConfig : DocError
  | missingRequiredField : Param → DocError
  | danglingStartMarker : DocError
  | danglingEndMarker : DocError
  | objectNotDict : DocError
  | keyNotFound : String → DocError

/-- A Python-level error: either a tool exception from the taxonomy, or an
untyped error (an `AttributeError`) outside the taxonomy. -/
inductive PyError where
  | doc : DocError → PyError
  | attributeError : PyError

/-- `prettyObject(param, key=...)` (lines 116-146): requires a dictionary,
requires the key to be present, and pretty-prints the value at the key. -/
def prettyObject (obj : Yaml) (key : String) : Except DocError String :=
  match obj with
  | Yaml.map kvs =>
    match alGet kvs key with
    | none => Except.error (DocError.keyNotFound key)
    | some v => Except.ok (prettyStr v)
  | _ => Except.error DocError.objectNotDict

/-- `self.mdStart` (line 48). -/
def mdStart : String := "ADOPipelineDoc Start"

/-- `self.mdEnd` (line 46). -/
def mdEnd : String := "ADOPipelineDoc End"

/-- `mdStartStr` (line 68). -/
def mdStartStr : String := "<!-- " ++ mdStart ++ " -->"

/-- `mdEndStr` (line 78). -/
def mdEndStr : String := "<!-- " ++ mdEnd ++ " -->"

/-- `heading_order` (lines 192-194). -/
def heading_order : List String :=
  ["required", "name", "type", "displayName", "values", "default"]

/-- `heading_separator` (lines 196-203). -/
def heading_separator : Dict String :=
  [("required", ":-:"), ("name", ":--"), ("type", ":--"),
   ("displayName", ":--"), ("values", ":--"), ("default", ":--")]

/-- `object_template` (lines 205-212). -/
def object_template : Row :=
  [("required", Yaml.str "Yes"), ("name", Yaml.str ""),
   ("type", Yaml.str ""), ("displayName", Yaml.str ""),
   ("values", Yaml.str ""), ("default", Yaml.str "")]

/-- The validation test of line 219: `name` and `type` must both be
present and truthy (`param.get` defaults to `None`). -/
def validB (p : Param) : Bool :=
  truthy (pyGet p "name" Yaml.nul) && truthy (pyGet p "type" Yaml.nul)

/-- The per-parameter use test of lines 223/226/232: the field is present
and truthy (`param.get(key, '')`). -/
def usesCol (p : Param) (c : String) : Bool :=
  truthy (pyGet p c (Yaml.str ""))

/-- The row-object construction for one parameter (lines 229-242):
copy the template, update with the parameter, clear `required` when a
truthy `default` is present, pretty-print an object default and a truthy
`values` field. -/
def buildRow (p : Param) : Except DocError Row := do
  let row0 := alUpdate object_template p
  let row1 :=
    if truthy (pyGet p "default" (Yaml.str "")) = true then
      alInsert row0 "required" (Yaml.str "")
    else row0
  let row2 ←
    if (pyEqStr (pyGet p "type" Yaml.nul) "object" &&
        truthy (pyGet p "default" Yaml.nul)) = true then do
      let s ← prettyObject (Yaml.map p) "default"
      pure (alInsert row1 "default" (Yaml.str s))
    else pure row1
  let row3 ←
    if truthy (pyGet p "values" Yaml.nul) = true then do
      let s ← prettyObject (Yaml.map p) "values"
      pure (alInsert row2 "values" (Yaml.str s))
    else pure row2
  pure row3

/-- `use_col` (line 214). -/
structure UseCol where
  displayName : Bool
  values : Bool
  default : Bool
deriving DecidableEq, Repr

/-- The initial `use_col` value, all `False`. -/
def UseCol0 : UseCol := UseCol.mk false false false

/-- The parameter loop of `processData` (lines 218-242): validate each
parameter, accumulate the column-usage flags, and build one row object per
parameter, aborting on the first parameter missing `name` or `type`. -/
def rowLoop : List Param → UseCol → Except DocError (List Row × UseCol)
  | [], u => Except.ok ([], u)
  | p :: rest, u =>
    if validB p = true then
      let u1 := UseCol.mk
        (u.displayName || usesCol p "displayName")
        (u.values || usesCol p "values")
        u.default
      match buildRow p with
      | Except.error e => Except.error e
      | Except.ok row =>
        let u2 := UseCol.mk u1.displayName u1.values
          (u1.default || usesCol p "default")
        match rowLoop rest u2 with
        | Except.error e => Except.error e
        | Except.ok (rows, u3) => Except.ok (row :: rows, u3)
    else Except.error (DocError.missingRequiredField p)

/-- One iteration of the column-drop loop (lines 244-248): when the flag
is false, remove the column from the heading and pop it from every row. -/
def dropStep (key : String) (flag : Bool) :
    List String × List Row → List String × List Row
  | (heading, rows) =>
    if flag then (heading, rows)
    else (heading.erase key, rows.map (fun r => alPop r key))

/-- The column-drop loop over `use_col.items()`, in dictionary order
`displayName`, `values`, `default` (lines 244-248). -/
def dropPhase (u : UseCol) (rows : List Row) : List String × List Row :=
  dropStep "default" u.default
    (dropStep "values" u.values
      (dropStep "displayName" u.displayName (heading_order, rows)))

/-- The markdown header row (line 254). -/
def headerRow (heading : List String) : String :=
  "| " ++ String.intercalate " | " heading ++ " |"

/-- The markdown alignment-separator row (lines 255-256). -/
def separatorRow (heading : List String) : String :=
  "| " ++ String.intercalate " | "
    (heading.map (fun k => (alGet heading_separator k).getD "")) ++ " |"

/-- One markdown data row (lines 263-266): `str(row.get(key, ''))` for
each heading column. -/
def renderLine (heading : List String) (row : Row) : String :=
  "| " ++ String.intercalate " | "
    (heading.map (fun k => pyStr (pyGet row k (Yaml.str "")))) ++ " |"

/-- The final `table_rows` (lines 250-268): marker lines only when an
output file is configured, then header, separator and one line per row. -/
def tableLines (mdFilePresent : Bool) (heading : List String)
    (rows : List Row) : List String :=
  (if mdFilePresent then [mdStartStr] else []) ++
    headerRow heading :: separatorRow heading ::
      rows.map (renderLine heading) ++
    (if mdFilePresent then [mdEndStr] else [])

/-- `processData` (lines 179-270) for a given parameter list: run the row
loop, drop the unused columns, render the table lines. -/
def processData (mdFilePresent : Bool) (params : List Param) :
    Except DocError (List String) :=
  match rowLoop params UseCol0 with
  | Except.error e => Except.error e
  | Except.ok (rows, u) =>
    let hr := dropPhase u rows
    Except.ok (tableLines mdFilePresent hr.1 hr.2)

/-- The index of the leftmost occurrence of `pat` in a character list, as
Python `str.find` computes it (modulo the `-1`-for-missing convention,
rendered here as `none`). -/
def findSub (pat : List Char) : List Char → Option Nat
  | [] => if pat.isPrefixOf ([] : List Char) then some 0 else none
  | c :: t =>
    if pat.isPrefixOf (c :: t) then some 0
    else (findSub pat t).map (fun n => n + 1)

/-- `content.find(pat)` on strings (character indices, like Python). -/
def findSubS (content pat : String) : Option Nat :=
  findSub pat.toList content.toList

/-- The state of the output target when `writeFile` runs: console mode
(no `mdFile`), a file path whose file does not exist, or an existing file
with the given content. -/
inductive MdState where
  | noFile : MdState
  | absent : MdState
  | present : String → MdState

/-- `self.mdFile is not None` (lines 251, 268, 285). -/
def mdPresent : MdState → Bool
  | MdState.noFile => false
  | _ => true

/-- The observable effect of the sink: the string printed to the console,
or the full new content of the target file. -/
inductive SinkEffect where
  | printed : String → SinkEffect
  | wrote : String → SinkEffect
deriving DecidableEq

/-- `writeFile` (lines 273-321): print in console mode; create the file
with the joined lines plus a newline when the file is missing; otherwise
locate the first occurrences of the two marker strings, fail on a lone
marker, append after the whole content when neither marker occurs, and
otherwise splice the joined lines over `content[:start_index]` ..
`content[end_index + len(end):]`.  The temporary-file/atomic-replace step
only affects crash behaviour; its observable result is the new content. -/
def writeFileModel (trs : List String) : MdState → Except DocError SinkEffect
  | MdState.noFile => Except.ok (SinkEffect.printed (String.intercalate "\n" trs))
  | MdState.absent => Except.ok (SinkEffect.wrote (String.intercalate "\n" trs ++ "\n"))
  | MdState.present content =>
    match findSubS content mdStartStr, findSubS content mdEndStr with
    | none, some _ => Except.error DocError.danglingEndMarker
    | some _, none => Except.error DocError.danglingStartMarker
    | none, none =>
      Except.ok (SinkEffect.wrote (content ++ "\n" ++ String.intercalate "\n" trs))
    | some si, some ei =>
      Except.ok (SinkEffect.wrote
        (content.take si ++ String.intercalate "\n" trs ++
          content.drop (ei + mdEndStr.length)))

/-- The `processData`-then-`writeFile` tail of `ADOPipelineDoc.__init__`
(lines 55-57): an exception raised during row building aborts the run
before any write is attempted, so an error result carries no sink
effect. -/
def runDoc (params : List Param) (st : MdState) : Except DocError SinkEffect :=
  match processData (mdPresent st) params with
  | Except.error e => Except.error e
  | Except.ok trs => writeFileModel trs st

/-- The body of `parseYAML` after the YAML text has been parsed to a value
(lines 162-173): `None` data is `EmptyConfig`; on a mapping,
`data.get('parameters', [])` must be truthy, else `NoParameters`; on any
other value, `self.data.get` raises an `AttributeError`, which neither the
local `except yaml.YAMLError` nor the top-level handler for the tool's
exception type catches. -/
def parseYAMLv (data : Yaml) : Except PyError Yaml :=
  match data with
  | Yaml.nul => Except.error (PyError.doc DocError.emptyConfig)
  | Yaml.map kvs =>
    let params := pyGet kvs "parameters" (Yaml.list [])
    if truthy params = true then Except.ok params
    else Except.error (PyError.doc DocError.noParameters)
  | _ => Except.error PyError.attributeError

/-! Derived observers: total forms of the pipeline stages, used to state
the claims.  Lemmas below prove that on the inputs the pipeline actually
reaches, they agree with the faithful definitions above. -/

/-- Stage one of the row construction (lines 229-234): copy the template,
update with the parameter, clear `required` when a truthy `default` is
present. -/
def rowStage1 (p : Param) : Row :=
  if truthy (pyGet p "default" (Yaml.str "")) = true then
    alInsert (alUpdate object_template p) "required" (Yaml.str "")
  else alUpdate object_template p

/-- Stage two (lines 236-237): pretty-print the default of an
object-typed parameter. -/
def rowStage2 (p : Param) (r : Row) : Row :=
  if (pyEqStr (pyGet p "type" Yaml.nul) "object" &&
      truthy (pyGet p "default" Yaml.nul)) = true then
    match alGet p "default" with
    | some v => alInsert r "default" (Yaml.str (prettyStr v))
    | none => r
  else r

/-- Stage three (lines 239-240): pretty-print a truthy `values` field. -/
def rowStage3 (p : Param) (r : Row) : Row :=
  if truthy (pyGet p "values" Yaml.nul) = true then
    match alGet p "values" with
    | some v => alInsert r "values" (Yaml.str (prettyStr v))
    | none => r
  else r

/-- The row object `buildRow` computes (it never actually fails: the
pretty-printing guards ensure the key is present; `buildRow_eq` below
proves the agreement). -/
def rowValue (p : Param) : Row :=
  rowStage3 p (rowStage2 p (rowStage1 p))

/-- The column-usage flags over a whole parameter list. -/
def useColOf (params : List Param) : UseCol :=
  UseCol.mk
    (params.any (fun p => usesCol p "displayName"))
    (params.any (fun p => usesCol p "values"))
    (params.any (fun p => usesCol p "default"))

/-- All row objects of a parameter list, in input order. -/
def builtRows (params : List Param) : List Row :=
  params.map rowValue

/-- Drop one column from one row when its flag is false. -/
def condPop (key : String) (flag : Bool) (r : Row) : Row :=
  if flag then r else alPop r key

/-- The per-row effect of the column-drop loop. -/
def rowDrop (u : UseCol) (r : Row) : Row :=
  condPop "default" u.default
    (condPop "values" u.values
      (condPop "displayName" u.displayName r))

/-- The heading that survives the column-drop loop. -/
def headingOf (u : UseCol) : List String :=
  (dropPhase u []).1

/-- The surviving heading and the dropped rows of a valid parameter
list. -/
def finalTable (params : List Param) : List String × List Row :=
  dropPhase (useColOf params) (builtRows params)

/-- The rendered data lines of a valid parameter list. -/
def dataLines (params : List Param) : List String :=
  (finalTable params).2.map (renderLine (finalTable params).1)

/-- A parameter record restricted to the six documentation column names
(every other field removed). -/
def restrict6 (p : Param) : Param :=
  p.filter (fun kv => decide (kv.1 ∈ heading_order))

/-- The three optional columns. -/
def optCols : List String := ["displayName", "values", "default"]

/-! Concrete inputs used by the counterexamples and witnesses. -/

/-- A valid parameter carrying an unrecognized `extra` field. -/
def cexC6a : Param :=
  [("name", Yaml.str "alpha"), ("type", Yaml.str "string"), ("extra", Yaml.str "x")]

/-- A valid parameter with only the required fields. -/
def cexC6b : Param :=
  [("name", Yaml.str "beta"), ("type", Yaml.str "string")]

/-- A valid parameter without a default but with an input field named
`required`. -/
def cexC4p : Param :=
  [("name", Yaml.str "a"), ("type", Yaml.str "string"), ("required", Yaml.str "Maybe")]

/-- A valid parameter with an unknown field named `required`. -/
def cexC7p : Param :=
  [("name", Yaml.str "b"), ("type", Yaml.str "string"), ("required", Yaml.str "No")]

/-- `cexC7p` with its unknown field removed. -/
def cexC7q : Param :=
  [("name", Yaml.str "b"), ("type", Yaml.str "string")]

/-- A valid parameter whose `default` key holds a falsy value and which
also carries an input field named `required`. -/
def cexC10p : Param :=
  [("name", Yaml.str "c"), ("type", Yaml.str "string"),
   ("default", Yaml.str ""), ("required", Yaml.str "Nope")]

/-- Target content in which the end marker occurs before the start
marker (both present). -/
def cexC1content : String := mdEndStr ++ "X" ++ mdStartStr

/-- Target content whose end-marker line carries trailing text after the
marker string. -/
def cexC2content : String :=
  "pre\n" ++ mdStartStr ++ "\nold\n" ++ mdEndStr ++ " TAIL\npost"

/-- A rendered marker-bracketed block with one data line. -/
def cexC2rows : List String := [mdStartStr, "| x |", mdEndStr]

/-- Target content with an end marker and no start marker anywhere. -/
def witC1end : String := "Q" ++ mdEndStr

/-- Target content with a start marker and no end marker anywhere. -/
def witC1start : String := mdStartStr ++ "Q"

/-- Well-formed target content with both markers. -/
def witC2content : String :=
  "A\n" ++ mdStartStr ++ "\nB\n" ++ mdEndStr ++ "\nC"

/-- A rendered block used when exercising the splice. -/
def witC2rows : List String := ["alpha", "beta"]

/-- Target content with both markers in the usual order. -/
def witC1both : String := mdStartStr ++ "\nmid\n" ++ mdEndStr

/-- Parameters exercising the three optional columns: one uses
`displayName`, one uses `default`, none uses `values`. -/
def witC3ps : List Param :=
  [[("name", Yaml.str "env"), ("type", Yaml.str "string"),
    ("displayName", Yaml.str "Env")],
   [("name", Yaml.str "replicas"), ("type", Yaml.str "number"),
    ("default", Yaml.int 3)]]

/-- A valid parameter without a default. -/
def witC4p : Param := [("name", Yaml.str "x"), ("type", Yaml.str "string")]

/-- A valid parameter with a non-empty default. -/
def witC4q : Param :=
  [("name", Yaml.str "y"), ("type", Yaml.str "string"),
   ("default", Yaml.str "d")]

/-- Two valid parameters, the second with a `values` list. -/
def witC5ps : List Param :=
  [[("name", Yaml.str "one"), ("type", Yaml.str "string")],
   [("name", Yaml.str "two"), ("type", Yaml.str "boolean"),
    ("values", Yaml.list [Yaml.str "a", Yaml.str "b"])]]

/-- Two valid parameters over recognized fields only. -/
def witC6ps : List Param :=
  [[("name", Yaml.str "m"), ("type", Yaml.str "string"),
    ("displayName", Yaml.str "M")],
   [("name", Yaml.str "n"), ("type", Yaml.str "string")]]

/-- A valid parameter carrying an unknown field outside the six column
names. -/
def witC7ps : List Param :=
  [[("name", Yaml.str "p"), ("type", Yaml.str "string"),
    ("note", Yaml.str "ignored")]]

/-- A parameter list whose second entry is missing `type`. -/
def witC8ps : List Param :=
  [[("name", Yaml.str "ok"), ("type", Yaml.str "string")],
   [("name", Yaml.str "bad")]]

/-- A valid parameter whose `default` key holds the falsy value `0`. -/
def witC10p : Param :=
  [("name", Yaml.str "z"), ("type", Yaml.str "string"),
   ("default", Yaml.int 0)]

/-! Dictionary lemmas. -/

theorem alGet_alInsert {β : Type} (d : Dict β) (k : String) (v : β) (k' : String) :
    alGet (alInsert d k v) k' = if k = k' then some v else alGet d k' := by
  induction d with
  | nil => simp [alInsert, alGet]
  | cons kv t ih =>
    obtain ⟨a, b⟩ := kv
    by_cases hak : a = k
    · subst hak
      by_cases hk' : a = k' <;> simp [alInsert, alGet, hk']
    · by_cases hk' : a = k'
      · subst hk'
        have : ¬k = a := fun h => hak h.symm
        simp [alInsert, alGet, hak, this]
      · simp [alInsert, alGet, hak, hk', ih]

theorem alGet_alUpdate {β : Type} (p : Dict β) (d : Dict β) (k : String) :
    alGet (alUpdate d p) k =
      match lastVal p k with
      | some w => some w
      | none => alGet d k := by
  induction p generalizing d with
  | nil => simp [alUpdate, lastVal]
  | cons kv t ih =>
    obtain ⟨a, b⟩ := kv
    rw [alUpdate, ih]
    cases h : lastVal t k with
    | some w => simp [lastVal, h]
    | none =>
      by_cases hak : a = k
      · subst hak
        simp [lastVal, h, alGet_alInsert]
      · have hka : ¬k = a := fun hh => hak hh.symm
        simp [lastVal, h, hak, alGet_alInsert, hka]

theorem keysOf_nil {β : Type} : keysOf ([] : Dict β) = [] := rfl

theorem keysOf_cons {β : Type} (a : String) (b : β) (t : Dict β) :
    keysOf ((a, b) :: t) = a :: keysOf t := rfl

theorem lastVal_eq_none_of_notMem {β : Type} (p : Dict β) (k : String)
    (h : k ∉ keysOf p) : lastVal p k = none := by
  induction p with
  | nil => rfl
  | cons kv t ih =>
    obtain ⟨a, b⟩ := kv
    rw [keysOf_cons, List.mem_cons] at h
    push_neg at h
    rw [lastVal, ih h.2, if_neg (fun hh => h.1 hh.symm)]

theorem alGet_eq_none_of_notMem {β : Type} (d : Dict β) (k : String)
    (h : k ∉ keysOf d) : alGet d k = none := by
  induction d with
  | nil => rfl
  | cons kv t ih =>
    obtain ⟨a, b⟩ := kv
    rw [keysOf_cons, List.mem_cons] at h
    push_neg at h
    rw [alGet, if_neg (fun hh => h.1 hh.symm), ih h.2]

theorem lastVal_eq_alGet_of_nodup {β : Type} (p : Dict β) (k : String)
    (h : (keysOf p).Nodup) : lastVal p k = alGet p k := by
  induction p with
  | nil => rfl
  | cons kv t ih =>
    obtain ⟨a, b⟩ := kv
    rw [keysOf_cons, List.nodup_cons] at h
    rw [lastVal, alGet, ih h.2]
    by_cases hak : a = k
    · subst hak
      rw [alGet_eq_none_of_notMem t a h.1, if_pos rfl]
    · cases hh : alGet t k <;> simp [hh, hak]

theorem alGet_alPop_ne {β : Type} (d : Dict β) (key k : String) (h : k ≠ key) :
    alGet (alPop d key) k = alGet d k := by
  induction d with
  | nil => rfl
  | cons kv t ih =>
    obtain ⟨a, b⟩ := kv
    rw [alPop]
    by_cases hak : a = key
    · have hk : ¬a = k := by rw [hak]; exact fun hh => h hh.symm
      rw [if_pos hak, alGet, if_neg hk]
    · rw [if_neg hak, alGet, alGet]
      by_cases hk : a = k
      · rw [if_pos hk, if_pos hk]
      · rw [if_neg hk, if_neg hk, ih]

theorem mem_keysOf_alPop {β : Type} (d : Dict β) (key x : String)
    (h : x ∈ keysOf (alPop d key)) : x ∈ keysOf d := by
  induction d with
  | nil => simpa [alPop] using h
  | cons kv t ih =>
    obtain ⟨a, b⟩ := kv
    rw [alPop] at h
    rw [keysOf_cons, List.mem_cons]
    by_cases hak : a = key
    · rw [if_pos hak] at h
      exact Or.inr h
    · rw [if_neg hak, keysOf_cons, List.mem_cons] at h
      rcases h with h | h
      · exact Or.inl h
      · exact Or.inr (ih h)

theorem alGet_alPop_self {β : Type} (d : Dict β) (key : String)
    (h : (keysOf d).Nodup) : alGet (alPop d key) key = none := by
  induction d with
  | nil => rfl
  | cons kv t ih =>
    obtain ⟨a, b⟩ := kv
    rw [keysOf_cons, List.nodup_cons] at h
    rw [alPop]
    by_cases hak : a = key
    · rw [if_pos hak]
      subst hak
      exact alGet_eq_none_of_notMem t a h.1
    · rw [if_neg hak, alGet, if_neg hak, ih h.2]

theorem nodup_keysOf_alPop {β : Type} (d : Dict β) (key : String)
    (h : (keysOf d).Nodup) : (keysOf (alPop d key)).Nodup := by
  induction d with
  | nil => simpa [alPop] using h
  | cons kv t ih =>
    obtain ⟨a, b⟩ := kv
    rw [keysOf_cons, List.nodup_cons] at h
    rw [alPop]
    by_cases hak : a = key
    · rw [if_pos hak]
      exact h.2
    · rw [if_neg hak, keysOf_cons, List.nodup_cons]
      exact ⟨fun hx => h.1 (mem_keysOf_alPop t key a hx), ih h.2⟩

theorem mem_keysOf_alInsert {β : Type} (d : Dict β) (k : String) (v : β) (x : String) :
    x ∈ keysOf (alInsert d k v) ↔ x ∈ keysOf d ∨ x = k := by
  induction d with
  | nil => simp [alInsert, keysOf]
  | cons kv t ih =>
    obtain ⟨a, b⟩ := kv
    rw [alInsert]
    by_cases hak : a = k
    · subst hak
      rw [if_pos rfl]
      simp only [keysOf_cons, List.mem_cons]
      tauto
    · rw [if_neg hak]
      simp only [keysOf_cons, List.mem_cons, ih]
      tauto

theorem nodup_keysOf_alInsert {β : Type} (d : Dict β) (k : String) (v : β)
    (h : (keysOf d).Nodup) : (keysOf (alInsert d k v)).Nodup := by
  induction d with
  | nil => simp [alInsert, keysOf]
  | cons kv t ih =>
    obtain ⟨a, b⟩ := kv
    rw [keysOf_cons, List.nodup_cons] at h
    rw [alInsert]
    by_cases hak : a = k
    · subst hak
      rw [if_pos rfl, keysOf_cons, List.nodup_cons]
      exact h
    · rw [if_neg hak, keysOf_cons, List.nodup_cons]
      refine ⟨fun hx => ?_, ih h.2⟩
      rw [mem_keysOf_alInsert] at hx
      rcases hx with hx | hx
      · exact h.1 hx
      · exact hak hx

theorem nodup_keysOf_alUpdate {β : Type} (p : Dict β) (d : Dict β)
    (h : (keysOf d).Nodup) : (keysOf (alUpdate d p)).Nodup := by
  induction p generalizing d with
  | nil => simpa [alUpdate] using h
  | cons kv t ih =>
    obtain ⟨a, b⟩ := kv
    rw [alUpdate]
    exact ih _ (nodup_keysOf_alInsert d a b h)

theorem alGet_filter {β : Type} (d : Dict β) (P : String → Bool) (k : String)
    (hP : P k = true) : alGet (d.filter (fun kv => P kv.1)) k = alGet d k := by
  induction d with
  | nil => rfl
  | cons kv t ih =>
    obtain ⟨a, b⟩ := kv
    by_cases hak : a = k
    · subst hak
      simp [List.filter, hP, alGet, ih]
    · cases hPa : P a <;> simp [List.filter, hPa, alGet, hak, ih]

theorem lastVal_filter {β : Type} (d : Dict β) (P : String → Bool) (k : String)
    (hP : P k = true) : lastVal (d.filter (fun kv => P kv.1)) k = lastVal d k := by
  induction d with
  | nil => rfl
  | cons kv t ih =>
    obtain ⟨a, b⟩ := kv
    by_cases hak : a = k
    · subst hak
      simp [List.filter, hP, lastVal, ih]
    · cases hPa : P a
      · rw [List.filter]
        simp only [hPa]
        rw [ih, lastVal]
        cases lastVal t k <;> simp [hak]
      · rw [List.filter]
        simp only [hPa]
        rw [lastVal, lastVal, ih]

/-! Row-construction lemmas. -/

theorem pyGet_eq_of_alGet_some (p : Param) (k : String) (v : Yaml) (d : Yaml)
    (h : alGet p k = some v) : pyGet p k d = v := by
  rw [pyGet, h]
  rfl

theorem pyGet_eq_of_alGet_none (p : Param) (k : String) (d : Yaml)
    (h : alGet p k = none) : pyGet p k d = d := by
  rw [pyGet, h]
  rfl

theorem alGet_some_of_truthy_nul (p : Param) (k : String)
    (h : truthy (pyGet p k Yaml.nul) = true) :
    ∃ v, alGet p k = some v ∧ truthy v = true := by
  cases hh : alGet p k with
  | none => rw [pyGet_eq_of_alGet_none p k _ hh] at h; exact absurd h (by decide)
  | some v => exact ⟨v, rfl, by rwa [pyGet_eq_of_alGet_some p k v _ hh] at h⟩

theorem truthy_nul_of_truthy_str (p : Param) (k : String)
    (h : truthy (pyGet p k (Yaml.str "")) = false) :
    truthy (pyGet p k Yaml.nul) = false := by
  cases hh : alGet p k with
  | none => rw [pyGet_eq_of_alGet_none p k _ hh]; rfl
  | some v => rwa [pyGet_eq_of_alGet_some p k v _ hh] at h ⊢

theorem buildRow_eq (p : Param) : buildRow p = Except.ok (rowValue p) := by
  rw [buildRow, rowValue, rowStage1, rowStage2, rowStage3]
  by_cases h2 : (pyEqStr (pyGet p "type" Yaml.nul) "object" &&
      truthy (pyGet p "default" Yaml.nul)) = true
  · obtain ⟨v, hv, -⟩ :=
      alGet_some_of_truthy_nul p "default" (Bool.and_eq_true_iff.mp h2).2
    by_cases h3 : truthy (pyGet p "values" Yaml.nul) = true
    · obtain ⟨w, hw, -⟩ := alGet_some_of_truthy_nul p "values" h3
      simp [h2, h3, prettyObject, hv, hw, bind, Except.bind, pure, Except.pure]
    · simp [h2, h3, prettyObject, hv, bind, Except.bind, pure, Except.pure]
  · by_cases h3 : truthy (pyGet p "values" Yaml.nul) = true
    · obtain ⟨w, hw, -⟩ := alGet_some_of_truthy_nul p "values" h3
      simp [h2, h3, prettyObject, hw, bind, Except.bind, pure, Except.pure]
    · simp [h2, h3, bind, Except.bind, pure, Except.pure]

theorem alGet_rowStage2_ne (p : Param) (r : Row) (c : String)
    (h : c ≠ "default") : alGet (rowStage2 p r) c = alGet r c := by
  rw [rowStage2]
  split
  · split
    · rw [alGet_alInsert, if_neg (fun hh => h hh.symm)]
    · rfl
  · rfl

theorem alGet_rowStage3_ne (p : Param) (r : Row) (c : String)
    (h : c ≠ "values") : alGet (rowStage3 p r) c = alGet r c := by
  rw [rowStage3]
  split
  · split
    · rw [alGet_alInsert, if_neg (fun hh => h hh.symm)]
    · rfl
  · rfl

theorem nodup_keysOf_rowStage1 (p : Param) : (keysOf (rowStage1 p)).Nodup := by
  rw [rowStage1]
  have h0 : (keysOf (alUpdate object_template p)).Nodup :=
    nodup_keysOf_alUpdate p object_template (by decide)
  split
  · exact nodup_keysOf_alInsert _ _ _ h0
  · exact h0

theorem nodup_keysOf_rowStage2 (p : Param) (r : Row)
    (h : (keysOf r).Nodup) : (keysOf (rowStage2 p r)).Nodup := by
  rw [rowStage2]
  split
  · split
    · exact nodup_keysOf_alInsert _ _ _ h
    · exact h
  · exact h

theorem nodup_keysOf_rowStage3 (p : Param) (r : Row)
    (h : (keysOf r).Nodup) : (keysOf (rowStage3 p r)).Nodup := by
  rw [rowStage3]
  split
  · split
    · exact nodup_keysOf_alInsert _ _ _ h
    · exact h
  · exact h

theorem nodup_keysOf_rowValue (p : Param) : (keysOf (rowValue p)).Nodup :=
  nodup_keysOf_rowStage3 p _ (nodup_keysOf_rowStage2 p _ (nodup_keysOf_rowStage1 p))

theorem isSome_alGet_alInsert (d : Row) (k : String) (v : Yaml) (c : String)
    (h : (alGet d c).isSome = true) : (alGet (alInsert d k v) c).isSome = true := by
  rw [alGet_alInsert]
  by_cases hkc : k = c
  · simp [hkc]
  · simpa [hkc] using h

theorem isSome_alGet_template (c : String) (hc : c ∈ heading_order) :
    (alGet object_template c).isSome = true := by
  fin_cases hc <;> decide

theorem isSome_alGet_rowValue (p : Param) (c : String) (hc : c ∈ heading_order) :
    (alGet (rowValue p) c).isSome = true := by
  have h0 : (alGet (alUpdate object_template p) c).isSome = true := by
    rw [alGet_alUpdate]
    cases hlv : lastVal p c
    · exact isSome_alGet_template c hc
    · rfl
  have h1 : (alGet (rowStage1 p) c).isSome = true := by
    rw [rowStage1]
    split
    · exact isSome_alGet_alInsert _ _ _ _ h0
    · exact h0
  have h2 : (alGet (rowStage2 p (rowStage1 p)) c).isSome = true := by
    rw [rowStage2]
    split
    · split
      · exact isSome_alGet_alInsert _ _ _ _ h1
      · exact h1
    · exact h1
  rw [rowValue, rowStage3]
  split
  · split
    · exact isSome_alGet_alInsert _ _ _ _ h2
    · exact h2
  · exact h2

theorem alGet_rowValue_required_yes (p : Param)
    (hreq : "required" ∉ keysOf p)
    (hdf : truthy (pyGet p "default" (Yaml.str "")) = false) :
    alGet (rowValue p) "required" = some (Yaml.str "Yes") := by
  have h0 : alGet (alUpdate object_template p) "required" = some (Yaml.str "Yes") := by
    rw [alGet_alUpdate, lastVal_eq_none_of_notMem p _ hreq]
    rfl
  have h1 : alGet (rowStage1 p) "required" = some (Yaml.str "Yes") := by
    rw [rowStage1, if_neg (by rw [hdf]; decide)]
    exact h0
  rw [rowValue, alGet_rowStage3_ne p _ _ (by decide),
    alGet_rowStage2_ne p _ _ (by decide)]
  exact h1

theorem alGet_rowValue_required_empty (p : Param)
    (hdf : truthy (pyGet p "default" (Yaml.str "")) = true) :
    alGet (rowValue p) "required" = some (Yaml.str "") := by
  have h1 : alGet (rowStage1 p) "required" = some (Yaml.str "") := by
    rw [rowStage1, if_pos hdf, alGet_alInsert]
    simp
  rw [rowValue, alGet_rowStage3_ne p _ _ (by decide),
    alGet_rowStage2_ne p _ _ (by decide)]
  exact h1

theorem alGet_rowValue_falsy_default (p : Param) (v : Yaml)
    (hnodup : (keysOf p).Nodup)
    (hv : alGet p "default" = some v) (hfalsy : truthy v = false) :
    alGet (rowValue p) "default" = some v := by
  have hstr : truthy (pyGet p "default" (Yaml.str "")) = false := by
    rwa [pyGet_eq_of_alGet_some p _ v _ hv]
  have hnul : truthy (pyGet p "default" Yaml.nul) = false := by
    rwa [pyGet_eq_of_alGet_some p _ v _ hv]
  have h0 : alGet (alUpdate object_template p) "default" = some v := by
    rw [alGet_alUpdate, lastVal_eq_alGet_of_nodup p _ hnodup, hv]
  have h1 : alGet (rowStage1 p) "default" = some v := by
    rw [rowStage1, if_neg (by rw [hstr]; decide), h0]
  rw [rowValue, alGet_rowStage3_ne p _ _ (by decide), rowStage2,
    if_neg (by rw [hnul, Bool.and_false]; decide)]
  exact h1

/-! Loop and drop-phase lemmas. -/

theorem rowLoop_ok (params : List Param)
    (h : ∀ p ∈ params, validB p = true) (u : UseCol) :
    rowLoop params u = Except.ok (builtRows params,
      UseCol.mk (u.displayName || (useColOf params).displayName)
        (u.values || (useColOf params).values)
        (u.default || (useColOf params).default)) := by
  induction params generalizing u with
  | nil => simp [rowLoop, builtRows, useColOf]
  | cons p rest ih =>
    have hp : validB p = true := h p (List.mem_cons_self p rest)
    rw [rowLoop, if_pos hp]
    simp only [buildRow_eq, ih (fun q hq => h q (List.mem_cons_of_mem p hq))]
    simp [builtRows, useColOf, Bool.or_assoc]

theorem rowLoop_missing (params : List Param)
    (h : ∃ p ∈ params, validB p = false) (u : UseCol) :
    ∃ q, q ∈ params ∧ validB q = false ∧
      rowLoop params u = Except.error (DocError.missingRequiredField q) := by
  induction params generalizing u with
  | nil => simp at h
  | cons p rest ih =>
    by_cases hp : validB p = true
    · have hrest : ∃ q ∈ rest, validB q = false := by
        rcases h with ⟨q, hq, hv⟩
        rcases List.mem_cons.mp hq with rfl | hq2
        · rw [hp] at hv; exact absurd hv (by decide)
        · exact ⟨q, hq2, hv⟩
      obtain ⟨q, hq, hv, heq⟩ := ih hrest (UseCol.mk
        ((UseCol.mk (u.displayName || usesCol p "displayName")
          (u.values || usesCol p "values") u.default).displayName)
        ((UseCol.mk (u.displayName || usesCol p "displayName")
          (u.values || usesCol p "values") u.default).values)
        ((UseCol.mk (u.displayName || usesCol p "displayName")
          (u.values || usesCol p "values") u.default).default || usesCol p "default"))
      refine ⟨q, List.mem_cons_of_mem p hq, hv, ?_⟩
      rw [rowLoop, if_pos hp, buildRow_eq]
      simp only [heq]
    · have hpf : validB p = false := by
        cases hvb : validB p
        · rfl
        · exact absurd hvb hp
      exact ⟨p, List.mem_cons_self p rest, hpf, by rw [rowLoop, if_neg hp]⟩

theorem processData_ok (b : Bool) (params : List Param)
    (h : ∀ p ∈ params, validB p = true) :
    processData b params =
      Except.ok (tableLines b (finalTable params).1 (finalTable params).2) := by
  rw [processData, rowLoop_ok params h UseCol0]
  simp [finalTable, UseCol0]

theorem dropStep_fst_subset (key : String) (flag : Bool)
    (hr : List String × List Row) : (dropStep key flag hr).1 ⊆ hr.1 := by
  obtain ⟨hh, rr⟩ := hr
  cases flag
  · simp only [dropStep, if_neg (by decide : ¬False)]
    exact List.erase_subset _ _
  · exact fun c hc => hc

theorem headingOf_subset (u : UseCol) : headingOf u ⊆ heading_order := by
  intro c hc
  rw [headingOf, dropPhase] at hc
  exact dropStep_fst_subset _ _ _
    (dropStep_fst_subset _ _ _ (dropStep_fst_subset _ _ _ hc))

theorem rowDrop_id (r : Row) : rowDrop (UseCol.mk true true true) r = r := by
  simp [rowDrop, condPop]

theorem map_rowDrop_id (rows : List Row) :
    rows.map (rowDrop (UseCol.mk true true true)) = rows := by
  induction rows with
  | nil => rfl
  | cons r t ih => rw [List.map_cons, ih, rowDrop_id]

theorem dropPhase_eq (u : UseCol) (rows : List Row) :
    dropPhase u rows = (headingOf u, rows.map (rowDrop u)) := by
  obtain ⟨d, v, df⟩ := u
  cases d <;> cases v <;> cases df <;>
    simp [dropPhase, dropStep, headingOf, rowDrop, condPop,
      List.map_map, Function.comp, map_rowDrop_id]

theorem mem_headingOf_opt (u : UseCol) :
    ("displayName" ∈ headingOf u ↔ u.displayName = true) ∧
    ("values" ∈ headingOf u ↔ u.values = true) ∧
    ("default" ∈ headingOf u ↔ u.default = true) := by
  obtain ⟨d, v, df⟩ := u
  cases d <;> cases v <;> cases df <;> refine ⟨?_, ?_, ?_⟩ <;> decide

theorem mem_headingOf_core (u : UseCol) :
    "required" ∈ headingOf u ∧ "name" ∈ headingOf u ∧ "type" ∈ headingOf u := by
  obtain ⟨d, v, df⟩ := u
  cases d <;> cases v <;> cases df <;> exact ⟨by decide, by decide, by decide⟩

theorem alGet_condPop_ne (key : String) (flag : Bool) (r : Row) (k : String)
    (h : k ≠ key) : alGet (condPop key flag r) k = alGet r k := by
  rw [condPop]
  split
  · rfl
  · exact alGet_alPop_ne r key k h

theorem nodup_keysOf_condPop (key : String) (flag : Bool) (r : Row)
    (h : (keysOf r).Nodup) : (keysOf (condPop key flag r)).Nodup := by
  rw [condPop]
  split
  · exact h
  · exact nodup_keysOf_alPop r key h

theorem alGet_rowDrop_core (u : UseCol) (r : Row) (c : String)
    (h1 : c ≠ "displayName") (h2 : c ≠ "values") (h3 : c ≠ "default") :
    alGet (rowDrop u r) c = alGet r c := by
  rw [rowDrop, alGet_condPop_ne _ _ _ _ h3, alGet_condPop_ne _ _ _ _ h2,
    alGet_condPop_ne _ _ _ _ h1]

theorem alGet_rowDrop_displayName (u : UseCol) (r : Row)
    (hn : (keysOf r).Nodup) :
    alGet (rowDrop u r) "displayName" =
      if u.displayName = true then alGet r "displayName" else none := by
  rw [rowDrop, alGet_condPop_ne _ _ _ _ (by decide),
    alGet_condPop_ne _ _ _ _ (by decide), condPop]
  cases hd : u.displayName
  · rw [if_neg (by decide : ¬(false = true)), if_neg (by decide : ¬(false = true))]
    exact alGet_alPop_self r _ hn
  · rw [if_pos rfl, if_pos rfl]

theorem alGet_rowDrop_values (u : UseCol) (r : Row)
    (hn : (keysOf r).Nodup) :
    alGet (rowDrop u r) "values" =
      if u.values = true then alGet r "values" else none := by
  have hn2 : (keysOf (condPop "displayName" u.displayName r)).Nodup :=
    nodup_keysOf_condPop _ _ _ hn
  rw [rowDrop, alGet_condPop_ne _ _ _ _ (by decide), condPop]
  cases hv : u.values
  · rw [if_neg (by decide : ¬(false = true)), if_neg (by decide : ¬(false = true))]
    exact alGet_alPop_self _ _ hn2
  · rw [if_pos rfl, if_pos rfl]
    exact alGet_condPop_ne _ _ _ _ (by decide)

theorem alGet_rowDrop_default (u : UseCol) (r : Row)
    (hn : (keysOf r).Nodup) :
    alGet (rowDrop u r) "default" =
      if u.default = true then alGet r "default" else none := by
  have hn2 : (keysOf (condPop "values" u.values
      (condPop "displayName" u.displayName r))).Nodup :=
    nodup_keysOf_condPop _ _ _ (nodup_keysOf_condPop _ _ _ hn)
  rw [rowDrop, condPop]
  cases hd : u.default
  · rw [if_neg (by decide : ¬(false = true)), if_neg (by decide : ¬(false = true))]
    exact alGet_alPop_self _ _ hn2
  · rw [if_pos rfl, if_pos rfl]
    rw [alGet_condPop_ne _ _ _ _ (by decide), alGet_condPop_ne _ _ _ _ (by decide)]

/-! Claim C1 (corrected). -/

/-- Claim C1, counterexample: a target document containing both markers
with the end marker occurring before the start marker does not fail; the
merge succeeds (with a garbled splice), refuting the claim that such a
document must fail. -/
theorem sink_marker_order_cex :
    findSubS cexC1content mdEndStr = some 0 ∧
    findSubS cexC1content mdStartStr = some 28 ∧
    writeFileModel ["L"] (MdState.present cexC1content) =
      Except.ok (SinkEffect.wrote
        "<!-- ADOPipelineDoc End -->XLX<!-- ADOPipelineDoc Start -->") := by
  refine ⟨by decide, by decide, rfl⟩

/-- Claim C1, amended: merging fails with `DanglingEndMarker` exactly when
an end marker occurs somewhere in the content and no start marker occurs
anywhere, and with `DanglingStartMarker` exactly when a start marker
occurs and no end marker occurs anywhere; when both markers are present —
in either order — the merge never fails. -/
theorem sink_marker_errors (trs : List String) (c : String) :
    (writeFileModel trs (MdState.present c) =
        Except.error DocError.danglingEndMarker ↔
      findSubS c mdStartStr = none ∧ (findSubS c mdEndStr).isSome = true) ∧
    (writeFileModel trs (MdState.present c) =
        Except.error DocError.danglingStartMarker ↔
      (findSubS c mdStartStr).isSome = true ∧ findSubS c mdEndStr = none) ∧
    ((findSubS c mdStartStr).isSome = true →
      (findSubS c mdEndStr).isSome = true →
      ∃ w, writeFileModel trs (MdState.present c) =
        Except.ok (SinkEffect.wrote w)) := by
  cases hs : findSubS c mdStartStr <;> cases he : findSubS c mdEndStr <;>
    simp [writeFileModel, hs, he]

/-- Claim C1, witness for the amended theorem: a content with an end and
no start fails with `DanglingEndMarker`; one with a start and no end
fails with `DanglingStartMarker`; one with both markers succeeds. -/
theorem sink_marker_errors_witness :
    (findSubS witC1end mdStartStr = none ∧
      (findSubS witC1end mdEndStr).isSome = true) ∧
    writeFileModel ["L"] (MdState.present witC1end) =
      Except.error DocError.danglingEndMarker ∧
    ((findSubS witC1start mdStartStr).isSome = true ∧
      findSubS witC1start mdEndStr = none) ∧
    writeFileModel ["L"] (MdState.present witC1start) =
      Except.error DocError.danglingStartMarker ∧
    ((findSubS witC1both mdStartStr).isSome = true ∧
      (findSubS witC1both mdEndStr).isSome = true) ∧
    (∃ w, writeFileModel ["L"] (MdState.present witC1both) =
      Except.ok (SinkEffect.wrote w)) :=
  ⟨⟨by decide, by decide⟩,
    ((sink_marker_errors ["L"] witC1end).1).mpr ⟨by decide, by decide⟩,
    ⟨by decide, by decide⟩,
    ((sink_marker_errors ["L"] witC1start).2.1).mpr ⟨by decide, by decide⟩,
    ⟨by decide, by decide⟩,
    (sink_marker_errors ["L"] witC1both).2.2 (by decide) (by decide)⟩

/-! Claim C2 (corrected). -/

/-- Claim C2, counterexample: when the end-marker line carries trailing
text after the marker string, that text lies inside the span the claim
says is replaced (the span through the end of the end-marker line), yet
the code preserves it: the output matches neither reading of the claim
(span including or excluding the final line break). -/
theorem sink_splice_line_cex :
    writeFileModel cexC2rows (MdState.present cexC2content) =
      Except.ok (SinkEffect.wrote
        ("pre\n" ++ mdStartStr ++ "\n| x |\n" ++ mdEndStr ++ " TAIL\npost")) ∧
    ("pre\n" ++ mdStartStr ++ "\n| x |\n" ++ mdEndStr ++ " TAIL\npost" ≠
      "pre\n" ++ mdStartStr ++ "\n| x |\n" ++ mdEndStr ++ "\npost") ∧
    ("pre\n" ++ mdStartStr ++ "\n| x |\n" ++ mdEndStr ++ " TAIL\npost" ≠
      "pre\n" ++ mdStartStr ++ "\n| x |\n" ++ mdEndStr ++ "post") := by
  refine ⟨rfl, by decide, by decide⟩

/-- Claim C2, amended: for an existing target containing both markers (at
their first occurrences), merging replaces exactly the span from the
start marker through the end of the end-marker string — not through the
end of its line — with the joined rendered block; every character strictly
before the start marker (`c.take si`) and strictly after the end-marker
string (`c.drop (ei + len)`) is preserved unchanged. -/
theorem sink_splice_span (trs : List String) (c : String) (si ei : Nat)
    (hs : findSubS c mdStartStr = some si)
    (he : findSubS c mdEndStr = some ei) :
    writeFileModel trs (MdState.present c) =
      Except.ok (SinkEffect.wrote
        (c.take si ++ String.intercalate "\n" trs ++
          c.drop (ei + mdEndStr.length))) := by
  simp [writeFileModel, hs, he]

/-- Claim C2, witness: the splice on a well-formed two-marker document. -/
theorem sink_splice_span_witness :
    findSubS witC2content mdStartStr = some 2 ∧
    findSubS witC2content mdEndStr = some 34 ∧
    writeFileModel witC2rows (MdState.present witC2content) =
      Except.ok (SinkEffect.wrote
        (witC2content.take 2 ++ String.intercalate "\n" witC2rows ++
          witC2content.drop (34 + mdEndStr.length))) :=
  ⟨by decide, by decide,
    sink_splice_span witC2rows witC2content 2 34 (by decide) (by decide)⟩

/-! Claim C8 (confirmed). -/

/-- Claim C8: a parameter list containing an entry whose `name` or `type`
is absent or falsy makes the whole run fail with `MissingRequiredField`
before the sink stage runs, so no file is created or modified (an error
result carries no sink effect). -/
theorem run_missing_required (params : List Param) (st : MdState)
    (h : ∃ p ∈ params, validB p = false) :
    ∃ q, q ∈ params ∧ validB q = false ∧
      runDoc params st = Except.error (DocError.missingRequiredField q) ∧
      ∀ eff : SinkEffect, runDoc params st ≠ Except.ok eff := by
  obtain ⟨q, hq, hv, heq⟩ := rowLoop_missing params h UseCol0
  have hrun : runDoc params st = Except.error (DocError.missingRequiredField q) := by
    rw [runDoc, processData, heq]
  exact ⟨q, hq, hv, hrun, fun eff hcontra => by
    rw [hrun] at hcontra
    exact Except.noConfusion hcontra⟩

/-- Claim C8, witness: a list whose second parameter is missing `type`
aborts the run with `MissingRequiredField` and produces no effect. -/
theorem run_missing_required_witness :
    (∃ p ∈ witC8ps, validB p = false) ∧
    (∃ q, q ∈ witC8ps ∧ validB q = false ∧
      runDoc witC8ps (MdState.absent) =
        Except.error (DocError.missingRequiredField q) ∧
      ∀ eff : SinkEffect, runDoc witC8ps (MdState.absent) ≠ Except.ok eff) :=
  ⟨⟨[("name", Yaml.str "bad")],
      List.mem_cons_of_mem _ (List.mem_cons_self _ _), by decide⟩,
    run_missing_required witC8ps MdState.absent
      ⟨[("name", Yaml.str "bad")],
        List.mem_cons_of_mem _ (List.mem_cons_self _ _), by decide⟩⟩

/-! Claim C9 (confirmed). -/

/-- Claim C9: when the document parses to a non-null value that is not a
mapping, the loader raises the untyped `AttributeError` (from
`data.get`), not any error of the tool's taxonomy. -/
theorem loader_nonmapping_untyped (data : Yaml)
    (h1 : data ≠ Yaml.nul) (h2 : ∀ kvs, data ≠ Yaml.map kvs) :
    parseYAMLv data = Except.error PyError.attributeError ∧
      ∀ e : DocError, parseYAMLv data ≠ Except.error (PyError.doc e) := by
  cases data with
  | nul => exact absurd rfl h1
  | map kvs => exact absurd rfl (h2 kvs)
  | bool b => exact ⟨rfl, fun e h => by simp [parseYAMLv] at h⟩
  | int n => exact ⟨rfl, fun e h => by simp [parseYAMLv] at h⟩
  | str s => exact ⟨rfl, fun e h => by simp [parseYAMLv] at h⟩
  | list xs => exact ⟨rfl, fun e h => by simp [parseYAMLv] at h⟩

/-- Claim C9, witness: a top-level list parses to a non-mapping and the
loader raises the untyped error. -/
theorem loader_nonmapping_untyped_witness :
    (Yaml.list [] ≠ Yaml.nul) ∧ (∀ kvs, Yaml.list [] ≠ Yaml.map kvs) ∧
    (parseYAMLv (Yaml.list []) = Except.error PyError.attributeError ∧
      ∀ e : DocError, parseYAMLv (Yaml.list []) ≠
        Except.error (PyError.doc e)) :=
  ⟨fun h => Yaml.noConfusion h, fun _ h => Yaml.noConfusion h,
    loader_nonmapping_untyped (Yaml.list [])
      (fun h => Yaml.noConfusion h) (fun _ h => Yaml.noConfusion h)⟩

/-! Claim C4 (corrected). -/

/-- Claim C4, counterexample: a valid parameter with no `default` but with
an input field named `required` renders its required cell as that field's
value (`Maybe`), not as `Yes` — `row_object.update(param)` copies the
field over the template's computed value. -/
theorem required_cell_override_cex :
    validB cexC4p = true ∧ alGet cexC4p "default" = none ∧
    processData false [cexC4p] = Except.ok
      ["| required | name | type |", "| :-: | :-- | :-- |",
       "| Maybe | a | string |"] ∧
    ("| Maybe | a | string |" ≠ "| Yes | a | string |") :=
  ⟨by decide, rfl, rfl, by decide⟩

/-- Claim C4, amended: provided the record does not itself contain a
`required` field, a parameter with no `default` key renders its required
cell as `Yes`; a parameter with a truthy `default` always renders it as
the empty string (the default rule runs after the template update and so
overrides any copied value).  The `required` column itself always
survives the drop phase at the head of the heading. -/
theorem required_cell_rendering (p : Param) (u : UseCol)
    (_hv : validB p = true) :
    (("required" ∉ keysOf p → alGet p "default" = none →
      pyStr (pyGet (rowDrop u (rowValue p)) "required" (Yaml.str "")) = "Yes") ∧
     (truthy (pyGet p "default" (Yaml.str "")) = true →
      pyStr (pyGet (rowDrop u (rowValue p)) "required" (Yaml.str "")) = "")) ∧
    (headingOf u).head? = some "required" := by
  refine ⟨⟨?_, ?_⟩, ?_⟩
  · intro hreq hdef
    have hfalsy : truthy (pyGet p "default" (Yaml.str "")) = false := by
      rw [pyGet_eq_of_alGet_none p _ _ hdef]
      rfl
    rw [pyGet, alGet_rowDrop_core u _ _ (by decide) (by decide) (by decide),
      alGet_rowValue_required_yes p hreq hfalsy]
    rfl
  · intro hdef
    rw [pyGet, alGet_rowDrop_core u _ _ (by decide) (by decide) (by decide),
      alGet_rowValue_required_empty p hdef]
    rfl
  · obtain ⟨d, v2, df⟩ := u
    cases d <;> cases v2 <;> cases df <;> decide

/-- Claim C4, witness: one record with no default renders `Yes`; one with
a non-empty default renders the empty cell. -/
theorem required_cell_rendering_witness :
    (validB witC4p = true ∧ "required" ∉ keysOf witC4p ∧
      alGet witC4p "default" = none ∧
      pyStr (pyGet (rowDrop UseCol0 (rowValue witC4p)) "required"
        (Yaml.str "")) = "Yes") ∧
    (validB witC4q = true ∧
      truthy (pyGet witC4q "default" (Yaml.str "")) = true ∧
      pyStr (pyGet (rowDrop UseCol0 (rowValue witC4q)) "required"
        (Yaml.str "")) = "") :=
  ⟨⟨by decide, by decide, rfl,
      (required_cell_rendering witC4p UseCol0 (by decide)).1.1 (by decide) rfl⟩,
    ⟨by decide, by decide,
      (required_cell_rendering witC4q UseCol0 (by decide)).1.2 (by decide)⟩⟩

/-! Claim C10 (corrected). -/

/-- Claim C10, counterexample: a parameter whose `default` key holds the
falsy value `''` and which also carries an input field named `required`
renders its required cell as that field's value (`Nope`), not `Yes`. -/
theorem falsy_default_override_cex :
    validB cexC10p = true ∧ alGet cexC10p "default" = some (Yaml.str "") ∧
    truthy (Yaml.str "") = false ∧
    processData false [cexC10p] = Except.ok
      ["| required | name | type |", "| :-: | :-- | :-- |",
       "| Nope | c | string |"] ∧
    ("| Nope | c | string |" ≠ "| Yes | c | string |") :=
  ⟨by decide, rfl, rfl, rfl, by decide⟩

/-- Claim C10, amended: provided the record (a well-formed mapping, keys
pairwise distinct) does not itself contain a `required` field, a falsy
present `default` leaves the required cell `Yes`, does not mark the
default column as used, yet the falsy value itself is copied into the
row's default cell and is the value rendered whenever the default column
survives (because some other parameter used it). -/
theorem falsy_default_row (p : Param) (u : UseCol) (v : Yaml)
    (_hv : validB p = true) (hnodup : (keysOf p).Nodup)
    (hget : alGet p "default" = some v) (hfalsy : truthy v = false)
    (hreq : "required" ∉ keysOf p) :
    pyStr (pyGet (rowDrop u (rowValue p)) "required" (Yaml.str "")) = "Yes" ∧
    usesCol p "default" = false ∧
    alGet (rowValue p) "default" = some v ∧
    (u.default = true →
      pyGet (rowDrop u (rowValue p)) "default" (Yaml.str "") = v) := by
  have hstr : truthy (pyGet p "default" (Yaml.str "")) = false := by
    rw [pyGet_eq_of_alGet_some p _ v _ hget]
    exact hfalsy
  refine ⟨?_, ?_, ?_, ?_⟩
  · rw [pyGet, alGet_rowDrop_core u _ _ (by decide) (by decide) (by decide),
      alGet_rowValue_required_yes p hreq hstr]
    rfl
  · exact hstr
  · exact alGet_rowValue_falsy_default p v hnodup hget hfalsy
  · intro hu
    rw [pyGet, alGet_rowDrop_default u _ (nodup_keysOf_rowValue p),
      if_pos hu, alGet_rowValue_falsy_default p v hnodup hget hfalsy]
    rfl

/-- Claim C10, witness: a record with `default: 0` keeps `Yes`, does not
use the default column, and renders `0` when the column survives. -/
theorem falsy_default_row_witness :
    (validB witC10p = true ∧ (keysOf witC10p).Nodup ∧
      alGet witC10p "default" = some (Yaml.int 0) ∧
      truthy (Yaml.int 0) = false ∧ "required" ∉ keysOf witC10p) ∧
    (pyStr (pyGet (rowDrop (UseCol.mk false false true) (rowValue witC10p))
        "required" (Yaml.str "")) = "Yes" ∧
      usesCol witC10p "default" = false ∧
      alGet (rowValue witC10p) "default" = some (Yaml.int 0) ∧
      ((UseCol.mk false false true).default = true →
        pyGet (rowDrop (UseCol.mk false false true) (rowValue witC10p))
          "default" (Yaml.str "") = Yaml.int 0)) :=
  ⟨⟨by decide, by decide, rfl, rfl, by decide⟩,
    falsy_default_row witC10p (UseCol.mk false false true) (Yaml.int 0)
      (by decide) (by decide) rfl rfl (by decide)⟩

/-! Uniform column drop: shared helper for C3 and C6. -/

theorem uniform_drop (params : List Param) (r : Row)
    (hr : r ∈ (finalTable params).2) (c : String) (hc : c ∈ heading_order) :
    (alGet r c).isSome = true ↔ c ∈ (finalTable params).1 := by
  rw [finalTable, dropPhase_eq] at hr ⊢
  obtain ⟨r0, hr0, rfl⟩ := List.mem_map.mp hr
  rw [builtRows] at hr0
  obtain ⟨p, hp, rfl⟩ := List.mem_map.mp hr0
  fin_cases hc
  · rw [alGet_rowDrop_core _ _ _ (by decide) (by decide) (by decide)]
    simp [isSome_alGet_rowValue p "required" (by decide),
      (mem_headingOf_core (useColOf params)).1]
  · rw [alGet_rowDrop_core _ _ _ (by decide) (by decide) (by decide)]
    simp [isSome_alGet_rowValue p "name" (by decide),
      (mem_headingOf_core (useColOf params)).2.1]
  · rw [alGet_rowDrop_core _ _ _ (by decide) (by decide) (by decide)]
    simp [isSome_alGet_rowValue p "type" (by decide),
      (mem_headingOf_core (useColOf params)).2.2]
  · rw [alGet_rowDrop_displayName _ _ (nodup_keysOf_rowValue p)]
    cases hd : (useColOf params).displayName
    · simp [hd, (mem_headingOf_opt (useColOf params)).1]
    · simp [hd, (mem_headingOf_opt (useColOf params)).1,
        isSome_alGet_rowValue p "displayName" (by decide)]
  · rw [alGet_rowDrop_values _ _ (nodup_keysOf_rowValue p)]
    cases hd : (useColOf params).values
    · simp [hd, (mem_headingOf_opt (useColOf params)).2.1]
    · simp [hd, (mem_headingOf_opt (useColOf params)).2.1,
        isSome_alGet_rowValue p "values" (by decide)]
  · rw [alGet_rowDrop_default _ _ (nodup_keysOf_rowValue p)]
    cases hd : (useColOf params).default
    · simp [hd, (mem_headingOf_opt (useColOf params)).2.2]
    · simp [hd, (mem_headingOf_opt (useColOf params)).2.2,
        isSome_alGet_rowValue p "default" (by decide)]

/-! Claim C3 (confirmed). -/

/-- Claim C3: for valid parameter lists, each optional column appears in
the surviving heading exactly when some parameter populates the
corresponding field (present and truthy), and a dropped column is absent
from every row while a surviving column is present in every row — never
per-row. -/
theorem optional_columns_iff (params : List Param)
    (h : ∀ p ∈ params, validB p = true) :
    rowLoop params UseCol0 = Except.ok (builtRows params, useColOf params) ∧
    (("displayName" ∈ (finalTable params).1 ↔
        params.any (fun p => usesCol p "displayName") = true) ∧
     ("values" ∈ (finalTable params).1 ↔
        params.any (fun p => usesCol p "values") = true) ∧
     ("default" ∈ (finalTable params).1 ↔
        params.any (fun p => usesCol p "default") = true)) ∧
    (∀ c, c ∈ optCols → ∀ r, r ∈ (finalTable params).2 →
      ((alGet r c).isSome = true ↔ c ∈ (finalTable params).1)) := by
  refine ⟨by simpa [UseCol0] using rowLoop_ok params h UseCol0, ?_, ?_⟩
  · have h1 := mem_headingOf_opt (useColOf params)
    rw [finalTable, dropPhase_eq]
    exact ⟨h1.1, h1.2.1, h1.2.2⟩
  · intro c hc r hr
    exact uniform_drop params r hr c (by fin_cases hc <;> decide)

/-- Claim C3, witness: with `displayName` and `default` each populated by
one parameter and `values` by none, the heading keeps exactly those two
optional columns and rows agree. -/
theorem optional_columns_iff_witness :
    (∀ p ∈ witC3ps, validB p = true) ∧
    (rowLoop witC3ps UseCol0 =
        Except.ok (builtRows witC3ps, useColOf witC3ps) ∧
      (("displayName" ∈ (finalTable witC3ps).1 ↔
          witC3ps.any (fun p => usesCol p "displayName") = true) ∧
       ("values" ∈ (finalTable witC3ps).1 ↔
          witC3ps.any (fun p => usesCol p "values") = true) ∧
       ("default" ∈ (finalTable witC3ps).1 ↔
          witC3ps.any (fun p => usesCol p "default") = true)) ∧
      (∀ c, c ∈ optCols → ∀ r, r ∈ (finalTable witC3ps).2 →
        ((alGet r c).isSome = true ↔ c ∈ (finalTable witC3ps).1))) :=
  ⟨by decide, optional_columns_iff witC3ps (by decide)⟩

/-! Claim C6 (corrected). -/

/-- Claim C6, counterexample: two valid parameters, one carrying an
unrecognized `extra` field, produce row records with different key sets
at the point of rendering — `row_object.update(param)` copies unknown
keys into that row only, and the drop loop removes only the three
optional columns. -/
theorem row_keys_uniform_cex :
    rowLoop [cexC6a, cexC6b] UseCol0 =
      Except.ok (builtRows [cexC6a, cexC6b], useColOf [cexC6a, cexC6b]) ∧
    (finalTable [cexC6a, cexC6b]).2.map keysOf =
      [["required", "name", "type", "extra"], ["required", "name", "type"]] ∧
    "extra" ∈ (["required", "name", "type", "extra"] : List String) ∧
    "extra" ∉ (["required", "name", "type"] : List String) :=
  ⟨rfl, by decide, by decide, by decide⟩

/-- Claim C6, amended: for valid parameter lists, the invariant holds
restricted to the six documentation columns: at the point of rendering,
a column of `heading_order` is a key of a row exactly when it survives in
the heading — uniformly across all rows.  Rows may additionally carry
differing unrecognized keys copied from their input records, so the full
key sets need not coincide. -/
theorem row_keys_uniform (params : List Param)
    (h : ∀ p ∈ params, validB p = true) :
    rowLoop params UseCol0 = Except.ok (builtRows params, useColOf params) ∧
    ∀ r, r ∈ (finalTable params).2 → ∀ c, c ∈ heading_order →
      ((alGet r c).isSome = true ↔ c ∈ (finalTable params).1) :=
  ⟨by simpa [UseCol0] using rowLoop_ok params h UseCol0,
    fun r hr c hc => uniform_drop params r hr c hc⟩

/-- Claim C6, witness: two recognized-field-only parameters. -/
theorem row_keys_uniform_witness :
    (∀ p ∈ witC6ps, validB p = true) ∧
    (rowLoop witC6ps UseCol0 =
        Except.ok (builtRows witC6ps, useColOf witC6ps) ∧
      ∀ r, r ∈ (finalTable witC6ps).2 → ∀ c, c ∈ heading_order →
        ((alGet r c).isSome = true ↔ c ∈ (finalTable witC6ps).1)) :=
  ⟨by decide, row_keys_uniform witC6ps (by decide)⟩

/-! Claim C5 (confirmed). -/

/-- Claim C5: for valid parameter lists, `processData` renders one data
line per parameter, in input order: the data lines are exactly the input
list mapped through row construction, uniform column drop and line
rendering, so their count equals the parameter count. -/
theorem data_lines_count_order (b : Bool) (params : List Param)
    (h : ∀ p ∈ params, validB p = true) :
    processData b params =
      Except.ok (tableLines b (finalTable params).1 (finalTable params).2) ∧
    tableLines b (finalTable params).1 (finalTable params).2 =
      (if b then [mdStartStr] else []) ++
        headerRow (finalTable params).1 :: separatorRow (finalTable params).1 ::
          dataLines params ++ (if b then [mdEndStr] else []) ∧
    dataLines params = params.map (fun p =>
      renderLine (finalTable params).1
        (rowDrop (useColOf params) (rowValue p))) ∧
    (dataLines params).length = params.length := by
  have hfst : (finalTable params).1 = headingOf (useColOf params) := by
    rw [finalTable, dropPhase_eq]
  have hsnd : (finalTable params).2 =
      (builtRows params).map (rowDrop (useColOf params)) := by
    rw [finalTable, dropPhase_eq]
  have h2 : dataLines params = params.map (fun p =>
      renderLine (finalTable params).1
        (rowDrop (useColOf params) (rowValue p))) := by
    rw [dataLines, hsnd, builtRows]
    simp only [List.map_map]
    rfl
  exact ⟨processData_ok b params h, rfl, h2, by rw [h2, List.length_map]⟩

/-- Claim C5, witness: two parameters produce exactly two data lines, in
order. -/
theorem data_lines_count_order_witness :
    (∀ p ∈ witC5ps, validB p = true) ∧
    (processData false witC5ps =
        Except.ok (tableLines false (finalTable witC5ps).1
          (finalTable witC5ps).2) ∧
      tableLines false (finalTable witC5ps).1 (finalTable witC5ps).2 =
        (if false then [mdStartStr] else []) ++
          headerRow (finalTable witC5ps).1 ::
            separatorRow (finalTable witC5ps).1 ::
            dataLines witC5ps ++ (if false then [mdEndStr] else []) ∧
      dataLines witC5ps = witC5ps.map (fun p =>
        renderLine (finalTable witC5ps).1
          (rowDrop (useColOf witC5ps) (rowValue p))) ∧
      (dataLines witC5ps).length = witC5ps.length) :=
  ⟨by decide, data_lines_count_order false witC5ps (by decide)⟩

/-! Claim C7 (corrected). -/

/-- Claim C7, counterexample: an unknown field named `required` changes
the rendered table — with it the required cell reads `No`, without it
`Yes` — so unknown fields are not all ignored for rendering. -/
theorem unknown_required_field_cex :
    processData false [cexC7p] = Except.ok
      ["| required | name | type |", "| :-: | :-- | :-- |",
       "| No | b | string |"] ∧
    processData false [cexC7q] = Except.ok
      ["| required | name | type |", "| :-: | :-- | :-- |",
       "| Yes | b | string |"] ∧
    (["| required | name | type |", "| :-: | :-- | :-- |",
      "| No | b | string |"] : List String) ≠
      ["| required | name | type |", "| :-: | :-- | :-- |",
       "| Yes | b | string |"] :=
  ⟨rfl, rfl, by decide⟩

theorem alGet_restrict6 (p : Param) (k : String) (hk : k ∈ heading_order) :
    alGet (restrict6 p) k = alGet p k := by
  rw [restrict6]
  exact alGet_filter p (fun x => decide (x ∈ heading_order)) k (decide_eq_true hk)

theorem lastVal_restrict6 (p : Param) (k : String) (hk : k ∈ heading_order) :
    lastVal (restrict6 p) k = lastVal p k := by
  rw [restrict6]
  exact lastVal_filter p (fun x => decide (x ∈ heading_order)) k (decide_eq_true hk)

theorem pyGet_restrict6 (p : Param) (k : String) (d : Yaml)
    (hk : k ∈ heading_order) : pyGet (restrict6 p) k d = pyGet p k d := by
  rw [pyGet, pyGet, alGet_restrict6 p k hk]

theorem validB_restrict6 (p : Param) : validB (restrict6 p) = validB p := by
  rw [validB, validB, pyGet_restrict6 p "name" _ (by decide),
    pyGet_restrict6 p "type" _ (by decide)]

theorem usesCol_restrict6 (p : Param) (c : String) (hc : c ∈ heading_order) :
    usesCol (restrict6 p) c = usesCol p c := by
  rw [usesCol, usesCol, pyGet_restrict6 p c _ hc]

theorem alGet_rowStage1_restrict6 (p : Param) (c : String)
    (hc : c ∈ heading_order) :
    alGet (rowStage1 (restrict6 p)) c = alGet (rowStage1 p) c := by
  have hbase : alGet (alUpdate object_template (restrict6 p)) c =
      alGet (alUpdate object_template p) c := by
    rw [alGet_alUpdate, alGet_alUpdate, lastVal_restrict6 p c hc]
  rw [rowStage1, rowStage1, pyGet_restrict6 p "default" _ (by decide)]
  split
  · rw [alGet_alInsert, alGet_alInsert, hbase]
  · exact hbase

theorem alGet_rowStage2_congr (p q : Param) (r1 r2 : Row) (c : String)
    (hty : pyGet p "type" Yaml.nul = pyGet q "type" Yaml.nul)
    (hdf : alGet p "default" = alGet q "default")
    (hr : alGet r1 c = alGet r2 c) :
    alGet (rowStage2 p r1) c = alGet (rowStage2 q r2) c := by
  have hdfn : pyGet p "default" Yaml.nul = pyGet q "default" Yaml.nul := by
    rw [pyGet, pyGet, hdf]
  rw [rowStage2, rowStage2, hty, hdfn, hdf]
  split
  · cases hgd : alGet q "default" with
    | none => simp only [hgd]; exact hr
    | some v =>
      simp only [hgd]
      rw [alGet_alInsert, alGet_alInsert, hr]
  · exact hr

theorem alGet_rowStage3_congr (p q : Param) (r1 r2 : Row) (c : String)
    (hvl : alGet p "values" = alGet q "values")
    (hr : alGet r1 c = alGet r2 c) :
    alGet (rowStage3 p r1) c = alGet (rowStage3 q r2) c := by
  have hvln : pyGet p "values" Yaml.nul = pyGet q "values" Yaml.nul := by
    rw [pyGet, pyGet, hvl]
  rw [rowStage3, rowStage3, hvln, hvl]
  split
  · cases hgv : alGet q "values" with
    | none => simp only [hgv]; exact hr
    | some v =>
      simp only [hgv]
      rw [alGet_alInsert, alGet_alInsert, hr]
  · exact hr

theorem alGet_rowValue_restrict6 (p : Param) (c : String)
    (hc : c ∈ heading_order) :
    alGet (rowValue (restrict6 p)) c = alGet (rowValue p) c := by
  rw [rowValue, rowValue]
  exact alGet_rowStage3_congr _ _ _ _ c
    (alGet_restrict6 p "values" (by decide))
    (alGet_rowStage2_congr _ _ _ _ c
      (pyGet_restrict6 p "type" _ (by decide))
      (alGet_restrict6 p "default" (by decide))
      (alGet_rowStage1_restrict6 p c hc))

theorem alGet_rowDrop_congr (u : UseCol) (r1 r2 : Row) (c : String)
    (hc : c ∈ heading_order)
    (hn1 : (keysOf r1).Nodup) (hn2 : (keysOf r2).Nodup)
    (h : ∀ k, k ∈ heading_order → alGet r1 k = alGet r2 k) :
    alGet (rowDrop u r1) c = alGet (rowDrop u r2) c := by
  fin_cases hc
  · rw [alGet_rowDrop_core u r1 _ (by decide) (by decide) (by decide),
      alGet_rowDrop_core u r2 _ (by decide) (by decide) (by decide)]
    exact h _ (by decide)
  · rw [alGet_rowDrop_core u r1 _ (by decide) (by decide) (by decide),
      alGet_rowDrop_core u r2 _ (by decide) (by decide) (by decide)]
    exact h _ (by decide)
  · rw [alGet_rowDrop_core u r1 _ (by decide) (by decide) (by decide),
      alGet_rowDrop_core u r2 _ (by decide) (by decide) (by decide)]
    exact h _ (by decide)
  · rw [alGet_rowDrop_displayName u r1 hn1, alGet_rowDrop_displayName u r2 hn2,
      h _ (by decide)]
  · rw [alGet_rowDrop_values u r1 hn1, alGet_rowDrop_values u r2 hn2,
      h _ (by decide)]
  · rw [alGet_rowDrop_default u r1 hn1, alGet_rowDrop_default u r2 hn2,
      h _ (by decide)]

theorem renderLine_congr (heading : List String) (r1 r2 : Row)
    (h : ∀ c, c ∈ heading → alGet r1 c = alGet r2 c) :
    renderLine heading r1 = renderLine heading r2 := by
  have hmap : heading.map (fun k => pyStr (pyGet r1 k (Yaml.str ""))) =
      heading.map (fun k => pyStr (pyGet r2 k (Yaml.str ""))) :=
    List.map_congr_left (fun c hcm => by rw [pyGet, pyGet, h c hcm])
  rw [renderLine, renderLine, hmap]

theorem any_congr_aux {α : Type} (l : List α) (f g : α → Bool)
    (h : ∀ a, f a = g a) : l.any f = l.any g := by
  induction l with
  | nil => rfl
  | cons a t ih => simp [List.any_cons, h a, ih]

theorem useColOf_restrict6 (params : List Param) :
    useColOf (params.map restrict6) = useColOf params := by
  rw [useColOf, useColOf]
  simp only [List.any_map]
  rw [any_congr_aux params ((fun p => usesCol p "displayName") ∘ restrict6)
      (fun p => usesCol p "displayName")
      (fun p => usesCol_restrict6 p "displayName" (by decide)),
    any_congr_aux params ((fun p => usesCol p "values") ∘ restrict6)
      (fun p => usesCol p "values")
      (fun p => usesCol_restrict6 p "values" (by decide)),
    any_congr_aux params ((fun p => usesCol p "default") ∘ restrict6)
      (fun p => usesCol p "default")
      (fun p => usesCol_restrict6 p "default" (by decide))]

/-- Claim C7, amended: fields whose names lie outside the six column names
`required, name, type, displayName, values, default` have no effect on the
rendered table — restricting every record to those six keys leaves the
output of `processData` unchanged.  (A field named `required`, although
not a recognized input field, is copied into the row and does affect the
required cell, as the counterexample shows.) -/
theorem unknown_fields_ignored (b : Bool) (params : List Param)
    (h : ∀ p ∈ params, validB p = true) :
    processData b (params.map restrict6) = processData b params := by
  have hvalid6 : ∀ q ∈ params.map restrict6, validB q = true := by
    intro q hq
    obtain ⟨p, hp, rfl⟩ := List.mem_map.mp hq
    rw [validB_restrict6]
    exact h p hp
  rw [processData_ok b _ hvalid6, processData_ok b params h]
  have hu : useColOf (params.map restrict6) = useColOf params :=
    useColOf_restrict6 params
  have hfstR : (finalTable params).1 = headingOf (useColOf params) := by
    rw [finalTable, dropPhase_eq]
  have hfstL : (finalTable (params.map restrict6)).1 =
      headingOf (useColOf params) := by
    rw [finalTable, dropPhase_eq, hu]
  have hrows : (finalTable (params.map restrict6)).2.map
        (renderLine (headingOf (useColOf params))) =
      (finalTable params).2.map
        (renderLine (headingOf (useColOf params))) := by
    rw [finalTable, finalTable, dropPhase_eq, dropPhase_eq, hu,
      builtRows, builtRows]
    simp only [List.map_map]
    apply List.map_congr_left
    intro p _
    apply renderLine_congr
    intro c hch
    have hc : c ∈ heading_order := headingOf_subset _ hch
    exact alGet_rowDrop_congr _ _ _ c hc
      (nodup_keysOf_rowValue _) (nodup_keysOf_rowValue _)
      (fun k hk => alGet_rowValue_restrict6 p k hk)
  rw [tableLines, tableLines, hfstR, hfstL, hrows]

/-- Claim C7, witness: a record with an unknown `note` field renders the
same table as its six-column restriction. -/
theorem unknown_fields_ignored_witness :
    (∀ p ∈ witC7ps, validB p = true) ∧
    processData false (witC7ps.map restrict6) = processData false witC7ps :=
  ⟨by decide, unknown_fields_ignored false witC7ps (by decide)⟩

end ADODoc
